import Mathlib

/-!
Verification of the `allure-emailer` repository against its specification.

The development shallowly embeds the three source modules:

* `src/allure_emailer/config.py`  — `Config` dataclass and `Config.from_env`
  (the spec's ConfigResolver).  The process environment, the `.env` file and
  the command-line overrides are modelled as explicit finite maps
  `Field → Option String`; `load_dotenv(env_file, override=False)` followed by
  `os.getenv` is modelled as "environment value, else file value".
* `src/allure_emailer/emailer.py` — `parse_summary` (the spec's SummaryReader)
  and `build_html_email` (the spec's EmailRenderer).  The filesystem lookup and
  the JSON decoder are modelled as explicit inputs: a `Bool` saying whether the
  summary path is a regular file, and an `Option JsonVal` holding the decoded
  document (`none` = the bytes are not valid JSON).
* `src/allure_emailer/cli.py` — only the `send` command's conversion of the
  integer `--port` option to a string (`str(port)`) is needed; it is modelled
  by the decimal rendering `intDec`.

Python builtins used by the code (`int(...)`, `str.strip`, `str.split(",")`,
decimal formatting of integers in f-strings) are modelled explicitly below on
`List Char`, so every definition is executable and kernel-reducible.
-/

namespace AllureEmailer

/-! ## Models of the Python builtins -/

/-- The ten ASCII decimal digit characters. -/
def digitChars : List Char := ['0', '1', '2', '3', '4', '5', '6', '7', '8', '9']

/-- Numeric value of an ASCII digit character. -/
def dval (c : Char) : Nat := c.toNat - 48

/-- The ASCII digit character for a value below ten (used by the model of
Python's decimal formatting of integers). -/
def digitChar (k : Nat) : Char :=
  if k = 0 then '0' else if k = 1 then '1' else if k = 2 then '2'
  else if k = 3 then '3' else if k = 4 then '4' else if k = 5 then '5'
  else if k = 6 then '6' else if k = 7 then '7' else if k = 8 then '8' else '9'

/-- Fuel-driven core of decimal rendering: prepends the decimal digits of `n`
to `acc` (most significant first). -/
def natDecCore : Nat → Nat → List Char → List Char
  | 0, _, acc => acc
  | fuel + 1, n, acc =>
    if n < 10 then digitChar n :: acc
    else natDecCore fuel (n / 10) (digitChar (n % 10) :: acc)

/-- Model of Python's `str(n)` for a non-negative integer. -/
def natDec (n : Nat) : String := String.mk (natDecCore (n + 1) n [])

/-- Model of Python's `str(p)` for an arbitrary integer (as produced by the
CLI's `str(port)` and by f-string interpolation of the counters). -/
def intDec : Int → String
  | Int.ofNat n => natDec n
  | Int.negSucc n => "-" ++ natDec (n + 1)

/-- Model of Python's `str.strip()`: remove whitespace from both ends. -/
def stripChars (l : List Char) : List Char :=
  ((l.dropWhile Char.isWhitespace).reverse.dropWhile Char.isWhitespace).reverse

/-- Digit run accepted by Python's `int(str)` after the first digit: digits,
with a single underscore allowed only between two digits.  The flag records
whether the previous character was an underscore (which must be followed by a
digit and cannot end the run). -/
def goDigits (acc : Nat) (afterUnderscore : Bool) : List Char → Option Nat
  | [] => if afterUnderscore then none else some acc
  | c :: cs =>
    if c.isDigit then goDigits (acc * 10 + dval c) false cs
    else if c = '_' && !afterUnderscore then goDigits acc true cs
    else none

/-- Nonempty digit run (Python grammar `digit (["_"] digit)*`). -/
def parseUDigits : List Char → Option Nat
  | [] => none
  | c :: cs => if c.isDigit then goDigits (dval c) false cs else none

/-- Model of Python's `int(s)` on a string: strip surrounding whitespace, allow
one optional sign, then a nonempty digit run.  (CPython additionally accepts
non-ASCII unicode digits; those never arise in this development.) -/
def pyIntOfString (s : String) : Option Int :=
  match stripChars s.toList with
  | [] => none
  | c :: rest =>
    if c = '+' then (parseUDigits rest).map Int.ofNat
    else if c = '-' then (parseUDigits rest).map (fun n => -(n : Int))
    else (parseUDigits (c :: rest)).map Int.ofNat

/-- Model of Python's `s.split(",")` (on characters): split at every comma,
keeping empty segments, so the result is always nonempty. -/
def splitOnComma : List Char → List (List Char)
  | [] => [[]]
  | ',' :: rest => [] :: splitOnComma rest
  | c :: rest =>
    match splitOnComma rest with
    | h :: t => (c :: h) :: t
    | [] => [[c]]

/-! ## Embedding of `config.py` -/

/-- The eight recognized configuration fields (`config.py`, lines 77-86). -/
inductive Field where
  | host | port | user | password | sender | recipients | json_path | report_url
deriving DecidableEq

/-- A configuration source: a finite map from field names to optional string
values (the process environment, the `.env` file, or the override mapping). -/
def Src : Type := Field → Option String

/-- Uppercase environment-variable name of a field (`field_name.upper()`). -/
def Field.envName : Field → String
  | .host => "HOST"
  | .port => "PORT"
  | .user => "USER"
  | .password => "PASSWORD"
  | .sender => "SENDER"
  | .recipients => "RECIPIENTS"
  | .json_path => "JSON_PATH"
  | .report_url => "REPORT_URL"

/-- The `Config` dataclass of `config.py`. -/
structure Config where
  host : String
  port : Int
  user : String
  password : String
  sender : String
  recipients : List String
  json_path : String
  report_url : String
deriving DecidableEq

/-- The exceptions `Config.from_env` can raise: the two `ValueError`s of
lines 99 and 107, and the `AttributeError` Python would raise on
`None.split(",")` at line 109 (unreachable after validation). -/
inductive ConfigError where
  | missingConfiguration (fields : List String)
  | invalidPort (value : String)
  | attributeError
deriving DecidableEq

/-- The required fields of the validation at line 97, in source order. -/
def requiredFields : List Field :=
  [.host, .port, .user, .password, .sender, .recipients]

/-- Python falsiness of an optional string (`not env_map.get(k)`):
absent or empty. -/
def isBlank : Option String → Bool
  | none => true
  | some s => s == ""

/-- The merged `env_map` after lines 73-94: the override wins when present
(`if value is not None`), else the environment, else the `.env` file
(`load_dotenv(..., override=False)` does not replace existing variables). -/
def mergedMap (file env ov : Src) : Src :=
  fun f => (ov f).orElse (fun _ => (env f).orElse (fun _ => file f))

/-- The `missing` list of line 97 (uppercased at line 99). -/
def missingFields (m : Src) : List Field :=
  requiredFields.filter (fun f => isBlank (m f))

/-- Python `x or default` on an optional string (line 117). -/
def pyOrDefault (o : Option String) (d : String) : String :=
  match o with
  | none => d
  | some s => if s = "" then d else s

/-- The recipients normalization of line 109:
`[addr.strip() for addr in s.split(",") if addr.strip()]`. -/
def splitRecipients (s : String) : List String :=
  ((((splitOnComma s.toList).map stripChars).filter
      (fun l => !l.isEmpty)).map (fun l => String.mk l))

/-- Lines 109-119: split the recipients and build the `Config` value.
`m Field.recipients = none` would be Python's `None.split(",")`. -/
def finishConfig (m : Src) (portInt : Int) : Except ConfigError Config :=
  match m Field.recipients with
  | none => .error .attributeError
  | some rs =>
    .ok { host := (m Field.host).getD ""
          port := portInt
          user := (m Field.user).getD ""
          password := (m Field.password).getD ""
          sender := (m Field.sender).getD ""
          recipients := splitRecipients rs
          json_path := pyOrDefault (m Field.json_path) "allure-report/widgets/summary.json"
          report_url := (m Field.report_url).getD "" }

/-- Lines 102-107: `int(port_value) if port_value is not None else 0`, raising
`ValueError(f"Invalid port value: {port_value}")` when the string does not
parse. -/
def parsePortVal : Option String → Except ConfigError Int
  | none => .ok 0
  | some s =>
    match pyIntOfString s with
    | some n => .ok n
    | none => .error (.invalidPort s)

/-- Lines 96-119 of `config.py`, acting on the merged `env_map`: validate the
required fields, then parse the port (propagating its `ValueError`), then
normalise and construct. -/
def resolveMerged (m : Src) : Except ConfigError Config :=
  if missingFields m = [] then
    parsePortVal (m Field.port) >>= fun n => finishConfig m n
  else
    .error (.missingConfiguration ((missingFields m).map Field.envName))

/-- `Config.from_env` of `config.py`: merge file, environment and overrides
(in increasing precedence), then validate and construct. -/
def Config.from_env (file env ov : Src) : Except ConfigError Config :=
  resolveMerged (mergedMap file env ov)

/-! ## Embedding of `emailer.py` -/

/-- A decoded JSON value.  JSON numbers are modelled as integers (the summary
schema only carries integer counters); objects are association lists with the
keys distinct, as produced by `json.loads`. -/
inductive JsonVal where
  | null
  | bool (b : Bool)
  | num (n : Int)
  | str (s : String)
  | arr (elems : List JsonVal)
  | obj (fields : List (String × JsonVal))

/-- Whether a JSON value is an object (a Python `dict`, the only value with a
`.get` method among JSON results). -/
def JsonVal.isObj : JsonVal → Bool
  | .obj _ => true
  | _ => false

/-- The exceptions `parse_summary` can raise: `FileNotFoundError` (line 36),
`json.JSONDecodeError` from `json.loads` (line 37), `AttributeError` from
`.get` on a non-dict (lines 38-44), and `ValueError`/`TypeError` from
`int(...)` on a non-coercible value (lines 40-44). -/
inductive PyError where
  | fileNotFound
  | jsonDecodeError
  | attributeError
  | valueError
  | typeError
deriving DecidableEq

/-- The dictionary returned by `parse_summary` (the spec's SummaryCounters). -/
structure Stats where
  total : Int
  passed : Int
  failed : Int
  broken : Int
  skipped : Int
deriving DecidableEq

/-- Python's `int(x)` on a JSON value: integers pass through, booleans coerce
(`bool` is an `int` subclass), strings are parsed like `int(s)`, everything
else raises `TypeError`. -/
def coerceInt : JsonVal → Except PyError Int
  | .num n => .ok n
  | .bool b => .ok (if b then 1 else 0)
  | .str s =>
    match pyIntOfString s with
    | some n => .ok n
    | none => .error .valueError
  | .null => .error .typeError
  | .arr _ => .error .typeError
  | .obj _ => .error .typeError

/-- One counter extraction `int(stats.get(key, 0))` of lines 40-44. -/
def getCounter (stat : List (String × JsonVal)) (key : String) : Except PyError Int :=
  coerceInt ((stat.lookup key).getD (.num 0))

/-- `parse_summary` of `emailer.py`.  The filesystem and the JSON decoder are
explicit inputs: `fileIsFile` is `summary_path.is_file()` and `decoded` is the
result of `json.loads` on the file's text (`none` when the text is not valid
JSON, in which case `json.loads` raises `json.JSONDecodeError`). -/
def parse_summary (fileIsFile : Bool) (decoded : Option JsonVal) : Except PyError Stats :=
  if fileIsFile = false then .error .fileNotFound
  else
    match decoded with
    | none => .error .jsonDecodeError
    | some data =>
      match data with
      | .obj kvs =>
        match (kvs.lookup "statistic").getD (.obj []) with
        | .obj stat => do
          let t ← getCounter stat "total"
          let p ← getCounter stat "passed"
          let f ← getCounter stat "failed"
          let b ← getCounter stat "broken"
          let s ← getCounter stat "skipped"
          .ok ⟨t, p, f, b, s⟩
        | _ => .error .attributeError
      | _ => .error .attributeError

/-- `build_html_email` of `emailer.py`: the f-string pieces of lines 69-91,
with integer interpolation modelled by `intDec`. -/
def build_html_email (stats : Stats) (report_url : String) : String :=
  let table_rows :=
    "<tr><td><strong>Total</strong></td><td>" ++ intDec stats.total ++ "</td></tr>"
    ++ "<tr><td><strong>Passed</strong></td><td style='color: #28a745;'>"
    ++ intDec stats.passed ++ "</td></tr>"
    ++ "<tr><td><strong>Failed</strong></td><td style='color: #dc3545;'>"
    ++ intDec stats.failed ++ "</td></tr>"
    ++ "<tr><td><strong>Broken</strong></td><td style='color: #ffc107;'>"
    ++ intDec stats.broken ++ "</td></tr>"
    ++ "<tr><td><strong>Skipped</strong></td><td style='color: #6c757d;'>"
    ++ intDec stats.skipped ++ "</td></tr>"
  let link_html :=
    if report_url = "" then ""
    else "<p>You can view the full report <a href='" ++ report_url ++ "'>here</a>.</p>"
  "\n<html>\n  <body style=\"font-family: Arial, sans-serif;\">\n    <h2>Allure Test Report Summary</h2>\n    <table border=\"0\" cellpadding=\"6\" cellspacing=\"0\">\n      "
  ++ table_rows
  ++ "\n    </table>\n    "
  ++ link_html
  ++ "\n  </body>\n</html>\n"

/-! ## Occurrence predicates for the rendered HTML -/

/-- Whether `seg` occurs at the start of `l`. -/
def startsWithSeg : List Char → List Char → Bool
  | _, [] => true
  | [], _ :: _ => false
  | c :: cs, d :: ds => c == d && startsWithSeg cs ds

/-- Whether `seg` occurs contiguously anywhere in `l`. -/
def containsSeg : List Char → List Char → Bool
  | [], seg => seg.isEmpty
  | l@(_ :: rest), seg => startsWithSeg l seg || containsSeg rest seg

/-- No occurrence of the two characters of an opening anchor tag. -/
def noLtA : List Char → Bool
  | [] => true
  | c :: rest => !(c == '<' && rest.head? == some 'a') && noLtA rest

/-- Value of a most-significant-first digit list. -/
def valDigits (l : List Char) : Nat :=
  l.foldl (fun a c => a * 10 + dval c) 0

/-! ## Concrete configuration sources used by witnesses and counterexamples -/

/-- A source providing nothing (an empty environment, file, or override map). -/
def srcNone : Src := fun _ => none

/-- An environment with every required variable except `PORT`. -/
def envNoPort : Src := fun f =>
  match f with
  | .host => some "smtp.example.com"
  | .user => some "ci"
  | .password => some "secret"
  | .sender => some "ci@example.com"
  | .recipients => some "dev@example.com"
  | _ => none

/-- A `.env` file with every required key except `PORT`. -/
def fileNoPort : Src := fun f =>
  match f with
  | .host => some "smtp.file.example"
  | .user => some "fileuser"
  | .password => some "filepass"
  | .sender => some "file@example.com"
  | .recipients => some "file-dev@example.com"
  | _ => none

/-- An environment whose `RECIPIENTS` value is nonempty as a string but
contains no address. -/
def envCommaRecipients : Src := fun f =>
  match f with
  | .host => some "h"
  | .port => some "587"
  | .user => some "u"
  | .password => some "p"
  | .sender => some "s@x"
  | .recipients => some " , "
  | _ => none

/-- A fully populated environment. -/
def envFull : Src := fun f =>
  match f with
  | .host => some "smtp.example.com"
  | .port => some "587"
  | .user => some "user"
  | .password => some "pass"
  | .sender => some "sender@example.com"
  | .recipients => some "qa@example.com, lead@example.com"
  | _ => none

/-- The configuration resolved from `envFull` alone. -/
def cfgFull : Config :=
  { host := "smtp.example.com"
    port := 587
    user := "user"
    password := "pass"
    sender := "sender@example.com"
    recipients := ["qa@example.com", "lead@example.com"]
    json_path := "allure-report/widgets/summary.json"
    report_url := "" }

/-- The configuration resolved from `envFull` with the port overridden. -/
def cfgFull2525 : Config :=
  { host := "smtp.example.com"
    port := 2525
    user := "user"
    password := "pass"
    sender := "sender@example.com"
    recipients := ["qa@example.com", "lead@example.com"]
    json_path := "allure-report/widgets/summary.json"
    report_url := "" }

/-- An override map supplying the port only (the CLI's `--port 2525`). -/
def ovPort2525 : Src := fun f =>
  match f with
  | .port => some "2525"
  | _ => none

/-- An override map supplying every field. -/
def ovAll : Src := fun f =>
  match f with
  | .host => some "override.example"
  | .port => some "465"
  | .user => some "override-user"
  | .password => some "override-pass"
  | .sender => some "override@example.com"
  | .recipients => some "first@example.com,second@example.com"
  | .json_path => some "out/summary.json"
  | .report_url => some "https://reports.example/run/1"

/-- An environment carrying the recipients string of the specification's
splitting example. -/
def envSplitExample : Src := fun f =>
  match f with
  | .host => some "smtp.example.com"
  | .port => some "587"
  | .user => some "u"
  | .password => some "p"
  | .sender => some "s@example.com"
  | .recipients => some "a@x.com, b@y.com ,,c@z.com"
  | _ => none

/-- The five counter keys read at lines 40-44 of `emailer.py`, in evaluation
order. -/
def counterKeys : List String := ["total", "passed", "failed", "broken", "skipped"]

/-- A statistic object carrying a negative total. -/
def statNeg : List (String × JsonVal) := [("total", JsonVal.num (-3))]

/-- The counters produced from `statNeg`. -/
def rNeg : Stats := ⟨-3, 0, 0, 0, 0⟩

/-! ## Facts about the decimal rendering and `int(...)` parsing models -/

theorem digitChar_mem (k : Nat) : digitChar k ∈ digitChars := by
  unfold digitChar
  split_ifs <;> decide

theorem digitChars_spec :
    ∀ c ∈ digitChars, c.isDigit = true ∧ c ≠ 'a' ∧ c ≠ '<' ∧ c ≠ '_' ∧
      c ≠ '+' ∧ c ≠ '-' ∧ c.isWhitespace = false := by
  decide

theorem dval_digitChar (k : Nat) (h : k < 10) : dval (digitChar k) = k := by
  interval_cases k <;> decide

theorem natDecCore_append (fuel : Nat) :
    ∀ n acc, natDecCore fuel n acc = natDecCore fuel n [] ++ acc := by
  induction fuel with
  | zero => intro n acc; simp [natDecCore]
  | succ fuel ih =>
    intro n acc
    by_cases h : n < 10
    · simp [natDecCore, h]
    · simp only [natDecCore, if_neg h]
      rw [ih (n / 10) (digitChar (n % 10) :: acc), ih (n / 10) [digitChar (n % 10)]]
      simp

theorem natDecCore_mem (fuel : Nat) :
    ∀ n acc c, c ∈ natDecCore fuel n acc → c ∈ digitChars ∨ c ∈ acc := by
  induction fuel with
  | zero => intro n acc c h; exact Or.inr h
  | succ fuel ih =>
    intro n acc c h
    by_cases hn : n < 10
    · simp only [natDecCore, if_pos hn, List.mem_cons] at h
      rcases h with h | h
      · exact Or.inl (h ▸ digitChar_mem n)
      · exact Or.inr h
    · simp only [natDecCore, if_neg hn] at h
      rcases ih (n / 10) (digitChar (n % 10) :: acc) c h with h | h
      · exact Or.inl h
      · rcases List.mem_cons.mp h with h | h
        · exact Or.inl (h ▸ digitChar_mem (n % 10))
        · exact Or.inr h

theorem natDec_chars (n : Nat) : ∀ c ∈ (natDec n).toList, c ∈ digitChars := by
  intro c h
  rcases natDecCore_mem (n + 1) n [] c h with h | h
  · exact h
  · exact absurd h (List.not_mem_nil c)

theorem valDigits_append_one (xs : List Char) (c : Char) :
    valDigits (xs ++ [c]) = valDigits xs * 10 + dval c := by
  simp [valDigits, List.foldl_append]

theorem natDecCore_spec :
    ∀ fuel n, n < 10 ^ (fuel + 1) →
      valDigits (natDecCore (fuel + 1) n []) = n ∧ natDecCore (fuel + 1) n [] ≠ [] := by
  intro fuel
  induction fuel with
  | zero =>
    intro n h
    have h10 : n < 10 := by simpa using h
    simp [natDecCore, if_pos h10, valDigits, dval_digitChar n h10]
  | succ fuel ih =>
    intro n h
    by_cases hn : n < 10
    · simp [natDecCore, if_pos hn, valDigits, dval_digitChar n hn]
    · have hdiv : n / 10 < 10 ^ (fuel + 1) := by
        rw [Nat.div_lt_iff_lt_mul (by norm_num)]
        calc n < 10 ^ (fuel + 1 + 1) := h
          _ = 10 ^ (fuel + 1) * 10 := by ring
      obtain ⟨hval, hne⟩ := ih (n / 10) hdiv
      have heq : natDecCore (fuel + 1 + 1) n [] =
          natDecCore (fuel + 1) (n / 10) [] ++ [digitChar (n % 10)] := by
        simp only [natDecCore, if_neg hn]
        exact natDecCore_append (fuel + 1) (n / 10) [digitChar (n % 10)]
      constructor
      · rw [heq, valDigits_append_one, hval, dval_digitChar (n % 10) (Nat.mod_lt n (by norm_num))]
        omega
      · rw [heq]
        simp

theorem natDec_spec (n : Nat) :
    valDigits ((natDec n).toList) = n ∧ (natDec n).toList ≠ [] := by
  have hfuel : n < 10 ^ (n + 1) :=
    lt_of_lt_of_le (Nat.lt_pow_self (by norm_num) n)
      (Nat.pow_le_pow_right (by norm_num) (Nat.le_succ n))
  exact natDecCore_spec n n hfuel

theorem goDigits_spec :
    ∀ l acc, (∀ c ∈ l, c ∈ digitChars) →
      goDigits acc false l = some (l.foldl (fun a c => a * 10 + dval c) acc) := by
  intro l
  induction l with
  | nil => intro acc _; rfl
  | cons c cs ih =>
    intro acc h
    have hc := digitChars_spec c (h c (by simp))
    have hrest : ∀ d ∈ cs, d ∈ digitChars := fun d hd => h d (by simp [hd])
    simp only [goDigits, if_pos hc.1, List.foldl_cons]
    exact ih (acc * 10 + dval c) hrest

theorem parseUDigits_spec (l : List Char) (h : ∀ c ∈ l, c ∈ digitChars) (hne : l ≠ []) :
    parseUDigits l = some (valDigits l) := by
  cases l with
  | nil => exact absurd rfl hne
  | cons c cs =>
    have hc := digitChars_spec c (h c (by simp))
    have hrest : ∀ d ∈ cs, d ∈ digitChars := fun d hd => h d (by simp [hd])
    simp only [parseUDigits, if_pos hc.1]
    rw [goDigits_spec cs (dval c) hrest]
    simp [valDigits]

theorem dropWhile_of_not (p : Char → Bool) (l : List Char)
    (h : ∀ c ∈ l, p c = false) : l.dropWhile p = l := by
  cases l with
  | nil => rfl
  | cons c cs => simp [List.dropWhile, h c (by simp)]

theorem stripChars_of_no_ws (l : List Char)
    (h : ∀ c ∈ l, c.isWhitespace = false) : stripChars l = l := by
  unfold stripChars
  rw [dropWhile_of_not _ l h,
    dropWhile_of_not _ l.reverse (fun c hc => h c (List.mem_reverse.mp hc)),
    List.reverse_reverse]

theorem pyInt_natDec (n : Nat) : pyIntOfString (natDec n) = some (n : Int) := by
  have hc := natDec_chars n
  obtain ⟨hval, hne⟩ := natDec_spec n
  unfold pyIntOfString
  rw [stripChars_of_no_ws _ (fun c hcm => (digitChars_spec c (hc c hcm)).2.2.2.2.2.2)]
  rcases hl : (natDec n).toList with _ | ⟨c, cs⟩
  · exact absurd hl hne
  · have hcd := digitChars_spec c (hc c (by rw [hl]; simp))
    simp only [if_neg hcd.2.2.2.2.1, if_neg hcd.2.2.2.2.2.1]
    rw [← hl, parseUDigits_spec _ hc hne, hval]
    rfl

theorem string_toList_append (a b : String) :
    (a ++ b).toList = a.toList ++ b.toList := by
  cases a
  cases b
  rfl

theorem pyInt_intDec (p : Int) : pyIntOfString (intDec p) = some p := by
  cases p with
  | ofNat n => exact pyInt_natDec n
  | negSucc m =>
    have hc := natDec_chars (m + 1)
    obtain ⟨hval, hne⟩ := natDec_spec (m + 1)
    have htl : (intDec (Int.negSucc m)).toList = '-' :: (natDec (m + 1)).toList := by
      show (("-" : String) ++ natDec (m + 1)).toList = _
      rw [string_toList_append]
      rfl
    unfold pyIntOfString
    rw [htl, stripChars_of_no_ws _ ?hws]
    case hws =>
      intro c hcm
      rcases List.mem_cons.mp hcm with h | h
      · subst h; decide
      · exact (digitChars_spec c (hc c h)).2.2.2.2.2.2
    simp only [reduceIte]
    rw [parseUDigits_spec _ hc hne, hval]
    simp [Int.negSucc_eq]

/-! ## Facts about `Config.from_env` -/

theorem requiredNotBlank (m : Src) (f : Field) (hmiss : missingFields m = [])
    (hf : f ∈ requiredFields) : isBlank (m f) = false := by
  have h := List.filter_eq_nil_iff.mp hmiss f hf
  simpa using h

theorem finishConfig_ne_invalidPort (m : Src) (k : Int) (s : String) :
    finishConfig m k ≠ .error (.invalidPort s) := by
  unfold finishConfig
  cases m Field.recipients <;> simp

theorem finishConfig_ok_port (m : Src) (k : Int) (cfg : Config)
    (h : finishConfig m k = .ok cfg) : cfg.port = k := by
  unfold finishConfig at h
  cases hr : m Field.recipients with
  | none => rw [hr] at h; exact absurd h (by simp)
  | some rs =>
    rw [hr] at h
    injection h with h2
    rw [← h2]

theorem finishConfig_ok_recipients (m : Src) (k : Int) (cfg : Config) (rs : String)
    (hrec : m Field.recipients = some rs)
    (h : finishConfig m k = .ok cfg) : cfg.recipients = splitRecipients rs := by
  unfold finishConfig at h
  rw [hrec] at h
  injection h with h2
  rw [← h2]

theorem mergedMap_override (file env ov : Src) (f : Field) (v : String)
    (h : ov f = some v) : mergedMap file env ov f = some v := by
  simp [mergedMap, h, Option.orElse]

theorem except_bind_error {ε α β : Type} {x : Except ε α} {f : α → Except ε β} {e : ε}
    (h : x >>= f = .error e) : x = .error e ∨ ∃ a, x = .ok a ∧ f a = .error e := by
  cases x with
  | error e' =>
    left
    have h2 : (Except.error e' : Except ε β) = Except.error e := h
    injection h2 with h3
    subst h3
    rfl
  | ok a => exact Or.inr ⟨a, rfl, h⟩

theorem parsePortVal_error (o : Option String) (s : String)
    (h : parsePortVal o = .error (.invalidPort s)) :
    o = some s ∧ pyIntOfString s = none := by
  cases o with
  | none => simp [parsePortVal] at h
  | some t =>
    cases hpi : pyIntOfString t with
    | some n => simp [parsePortVal, hpi] at h
    | none =>
      simp only [parsePortVal, hpi] at h
      injection h with h2
      injection h2 with h3
      subst h3
      exact ⟨rfl, hpi⟩

/-! ## Facts about `parse_summary` -/

theorem except_bind_ok {ε α β : Type} {x : Except ε α} {f : α → Except ε β} {b : β}
    (h : x >>= f = .ok b) : ∃ a, x = .ok a ∧ f a = .ok b := by
  cases x with
  | error e => simp [Bind.bind, Except.bind] at h
  | ok a => exact ⟨a, rfl, h⟩

theorem error_bind {ε α β : Type} (e : ε) (f : α → Except ε β) :
    ((Except.error e : Except ε α) >>= f) = Except.error e := rfl

theorem ok_bind {ε α β : Type} (a : α) (f : α → Except ε β) :
    ((Except.ok a : Except ε α) >>= f) = f a := rfl

theorem parse_stat_ok_fields (stat : List (String × JsonVal)) (r : Stats)
    (h : parse_summary true (some (.obj [("statistic", .obj stat)])) = .ok r) :
    coerceInt ((stat.lookup "total").getD (.num 0)) = .ok r.total ∧
    coerceInt ((stat.lookup "passed").getD (.num 0)) = .ok r.passed ∧
    coerceInt ((stat.lookup "failed").getD (.num 0)) = .ok r.failed ∧
    coerceInt ((stat.lookup "broken").getD (.num 0)) = .ok r.broken ∧
    coerceInt ((stat.lookup "skipped").getD (.num 0)) = .ok r.skipped := by
  have h' : (getCounter stat "total" >>= fun t =>
      getCounter stat "passed" >>= fun p =>
      getCounter stat "failed" >>= fun f =>
      getCounter stat "broken" >>= fun b =>
      getCounter stat "skipped" >>= fun s =>
      Except.ok ⟨t, p, f, b, s⟩) = .ok r := h
  obtain ⟨t, ht, h'⟩ := except_bind_ok h'
  obtain ⟨p, hp, h'⟩ := except_bind_ok h'
  obtain ⟨f, hf, h'⟩ := except_bind_ok h'
  obtain ⟨b, hb, h'⟩ := except_bind_ok h'
  obtain ⟨s, hs, h'⟩ := except_bind_ok h'
  injection h' with h2
  subst h2
  exact ⟨ht, hp, hf, hb, hs⟩

theorem parse_stat_error_src (stat : List (String × JsonVal)) (e : PyError)
    (he : parse_summary true (some (.obj [("statistic", .obj stat)])) = .error e) :
    ∃ key ∈ counterKeys, coerceInt ((stat.lookup key).getD (.num 0)) = .error e := by
  have he' : (getCounter stat "total" >>= fun t =>
      getCounter stat "passed" >>= fun p =>
      getCounter stat "failed" >>= fun f =>
      getCounter stat "broken" >>= fun b =>
      getCounter stat "skipped" >>= fun s =>
      Except.ok (Stats.mk t p f b s)) = .error e := he
  cases h1 : getCounter stat "total" with
  | error e1 =>
    simp only [h1, error_bind] at he'
    injection he' with h
    subst h
    exact ⟨"total", by decide, h1⟩
  | ok t =>
    simp only [h1, ok_bind] at he'
    cases h2 : getCounter stat "passed" with
    | error e2 =>
      simp only [h2, error_bind] at he'
      injection he' with h
      subst h
      exact ⟨"passed", by decide, h2⟩
    | ok p =>
      simp only [h2, ok_bind] at he'
      cases h3 : getCounter stat "failed" with
      | error e3 =>
        simp only [h3, error_bind] at he'
        injection he' with h
        subst h
        exact ⟨"failed", by decide, h3⟩
      | ok f =>
        simp only [h3, ok_bind] at he'
        cases h4 : getCounter stat "broken" with
        | error e4 =>
          simp only [h4, error_bind] at he'
          injection he' with h
          subst h
          exact ⟨"broken", by decide, h4⟩
        | ok b =>
          simp only [h4, ok_bind] at he'
          cases h5 : getCounter stat "skipped" with
          | error e5 =>
            simp only [h5, error_bind] at he'
            injection he' with h
            subst h
            exact ⟨"skipped", by decide, h5⟩
          | ok s =>
            simp only [h5, ok_bind] at he'
            exact absurd he' (by simp)

/-! ## Facts about the occurrence predicates and the rendered HTML -/

theorem some_beq_some (a b : Char) : (some a == some b) = (a == b) := rfl

theorem toList_empty : ("" : String).toList = [] := rfl

theorem noLtA_append : ∀ a b : List Char, noLtA a = true → noLtA b = true →
    (b.head? == some 'a') = false → noLtA (a ++ b) = true := by
  intro a b
  induction a with
  | nil => intro _ hb _; simpa using hb
  | cons c cs ih =>
    intro ha hb hh
    simp only [noLtA, Bool.and_eq_true] at ha
    simp only [List.cons_append, noLtA, Bool.and_eq_true]
    refine ⟨?_, ih ha.2 hb hh⟩
    cases cs with
    | nil => simp [hh]
    | cons d ds => simpa using ha.1

theorem head_append_ne (x r : List Char) (c : Char) (h : x.head? = some c)
    (hc : c ≠ 'a') : ((x ++ r).head? == some 'a') = false := by
  cases x with
  | nil => simp at h
  | cons d ds =>
    simp only [List.head?_cons, Option.some.injEq] at h
    subst h
    simp only [List.cons_append, List.head?_cons, some_beq_some]
    simpa using hc

theorem noLtA_of_no_lt (l : List Char) (h : ∀ c ∈ l, c ≠ '<') : noLtA l = true := by
  induction l with
  | nil => rfl
  | cons c cs ih =>
    simp only [noLtA, Bool.and_eq_true]
    refine ⟨?_, ih (fun d hd => h d (by simp [hd]))⟩
    have hc : c ≠ '<' := h c (by simp)
    simp [hc]

theorem intDec_negSucc_toList (m : Nat) :
    (intDec (Int.negSucc m)).toList = '-' :: (natDec (m + 1)).toList := by
  show (("-" : String) ++ natDec (m + 1)).toList = _
  rw [string_toList_append]
  rfl

theorem intDec_chars (p : Int) : ∀ c ∈ (intDec p).toList, c ∈ digitChars ∨ c = '-' := by
  cases p with
  | ofNat n => exact fun c h => Or.inl (natDec_chars n c h)
  | negSucc m =>
    intro c h
    rw [intDec_negSucc_toList] at h
    rcases List.mem_cons.mp h with h | h
    · exact Or.inr h
    · exact Or.inl (natDec_chars (m + 1) c h)

theorem intDec_ne_nil (p : Int) : (intDec p).toList ≠ [] := by
  cases p with
  | ofNat n => exact (natDec_spec n).2
  | negSucc m => rw [intDec_negSucc_toList]; simp

theorem noLtA_intDec (p : Int) : noLtA (intDec p).toList = true := by
  refine noLtA_of_no_lt _ (fun c h => ?_)
  rcases intDec_chars p c h with h1 | h1
  · exact (digitChars_spec c h1).2.2.1
  · subst h1; decide

theorem intDec_head_ne (p : Int) (r : List Char) :
    (((intDec p).toList ++ r).head? == some 'a') = false := by
  cases hl : (intDec p).toList with
  | nil => exact absurd hl (intDec_ne_nil p)
  | cons c cs =>
    have hmem : c ∈ (intDec p).toList := by rw [hl]; simp
    have hc : c ≠ 'a' := by
      rcases intDec_chars p c hmem with h1 | h1
      · exact (digitChars_spec c h1).2.1
      · subst h1; decide
    exact head_append_ne (c :: cs) r c rfl hc

theorem startsWithSeg_append (seg : List Char) :
    ∀ l r, startsWithSeg l seg = true → startsWithSeg (l ++ r) seg = true := by
  induction seg with
  | nil => intro l r _; cases l ++ r <;> rfl
  | cons d ds ih =>
    intro l r h
    cases l with
    | nil => simp [startsWithSeg] at h
    | cons c cs =>
      simp only [startsWithSeg, Bool.and_eq_true] at h
      simp only [List.cons_append, startsWithSeg, Bool.and_eq_true]
      exact ⟨h.1, ih cs r h.2⟩

theorem containsSeg_append_right (a b seg : List Char) (h : containsSeg b seg = true) :
    containsSeg (a ++ b) seg = true := by
  induction a with
  | nil => simpa using h
  | cons c cs ih =>
    simp only [List.cons_append, containsSeg, Bool.or_eq_true]
    exact Or.inr ih

theorem containsSeg_anchor_eq (l : List Char) : containsSeg l ['<', 'a'] = !(noLtA l) := by
  induction l with
  | nil => rfl
  | cons c cs ih =>
    simp only [containsSeg, noLtA, ih]
    cases cs with
    | nil =>
      cases hb : (c == '<') <;> simp [startsWithSeg, hb, noLtA]
    | cons d ds =>
      cases hb1 : (c == '<') <;> cases hb2 : (d == 'a') <;>
        cases hb3 : noLtA (d :: ds) <;>
        simp [startsWithSeg, hb1, hb2, hb3, some_beq_some]

/-! ## The claims -/

/-- C1: override precedence in `Config.from_env`: whenever the override map
supplies a value for a field, that value is the merged value for the field,
and the resolution result does not depend on the file or environment values of
the overridden fields (two runs whose file and environment agree only on the
non-overridden fields resolve identically). -/
theorem C1_override_precedence (file₁ env₁ file₂ env₂ ov : Src)
    (h : ∀ f, ov f = none → env₁ f = env₂ f ∧ file₁ f = file₂ f) :
    Config.from_env file₁ env₁ ov = Config.from_env file₂ env₂ ov ∧
      ∀ f v, ov f = some v → mergedMap file₁ env₁ ov f = some v := by
  have hm : mergedMap file₁ env₁ ov = mergedMap file₂ env₂ ov := by
    funext f
    cases hf : ov f with
    | some v => simp [mergedMap, hf, Option.orElse]
    | none =>
      obtain ⟨he, hfl⟩ := h f hf
      simp [mergedMap, hf, he, hfl, Option.orElse]
  refine ⟨?_, fun f v hv => mergedMap_override _ _ _ _ _ hv⟩
  unfold Config.from_env
  rw [hm]

/-- C1 witness: with every field overridden, two resolutions from wildly
different files and environments coincide, and the merged host is the
override's host. -/
theorem C1_override_precedence_witness :
    Config.from_env fileNoPort envFull ovAll = Config.from_env srcNone envCommaRecipients ovAll ∧
      mergedMap fileNoPort envFull ovAll Field.host = some "override.example" := by
  obtain ⟨h1, h2⟩ :=
    C1_override_precedence fileNoPort envFull srcNone envCommaRecipients ovAll
      (fun f hf => by cases f <;> simp [ovAll] at hf)
  exact ⟨h1, h2 Field.host "override.example" rfl⟩

/-- C2 counterexample: with `port` absent from all three sources (and every
other required field present), `Config.from_env` does not succeed with port 0;
it fails with the missing-configuration error naming `PORT`. -/
theorem C2_counterexample :
    Config.from_env srcNone envNoPort srcNone =
      .error (.missingConfiguration ["PORT"]) := rfl

/-- C2 (amended): when `port` is absent from all three sources, resolution
fails with `MissingConfiguration` naming `PORT` (the default-to-0 branch of
the port conversion is unreachable); the `InvalidPort` error occurs only for a
merged port string that is non-empty and not a valid integer. -/
theorem C2_port_validation (file env ov : Src) :
    (mergedMap file env ov Field.port = none →
      Config.from_env file env ov =
        .error (.missingConfiguration
          ((missingFields (mergedMap file env ov)).map Field.envName)) ∧
      "PORT" ∈ (missingFields (mergedMap file env ov)).map Field.envName) ∧
    (∀ s, Config.from_env file env ov = .error (.invalidPort s) →
      s ≠ "" ∧ pyIntOfString s = none) := by
  constructor
  · intro hp
    have hmem : Field.port ∈ missingFields (mergedMap file env ov) :=
      List.mem_filter.mpr ⟨by decide, by simp [isBlank, hp]⟩
    have hne : missingFields (mergedMap file env ov) ≠ [] := List.ne_nil_of_mem hmem
    refine ⟨?_, List.mem_map_of_mem Field.envName hmem⟩
    unfold Config.from_env resolveMerged
    rw [if_neg hne]
  · intro s hs
    unfold Config.from_env resolveMerged at hs
    by_cases hmiss : missingFields (mergedMap file env ov) = []
    · rw [if_pos hmiss] at hs
      rcases except_bind_error hs with h | ⟨n, _, hfin⟩
      · obtain ⟨hport, hpi⟩ := parsePortVal_error _ _ h
        have hblank := requiredNotBlank _ Field.port hmiss (by decide)
        rw [hport] at hblank
        refine ⟨fun heq => ?_, hpi⟩
        subst heq
        simp [isBlank] at hblank
      · exact absurd hfin (finishConfig_ne_invalidPort _ n s)
    · rw [if_neg hmiss] at hs
      injection hs with h2
      exact ConfigError.noConfusion h2

/-- C2 witness: a run whose `.env` file carries everything except `PORT` (with
an empty environment and no overrides) hits the missing-`PORT` failure. -/
theorem C2_port_validation_witness :
    Config.from_env fileNoPort srcNone srcNone =
      .error (.missingConfiguration
        ((missingFields (mergedMap fileNoPort srcNone srcNone)).map Field.envName)) ∧
    "PORT" ∈ (missingFields (mergedMap fileNoPort srcNone srcNone)).map Field.envName :=
  (C2_port_validation fileNoPort srcNone srcNone).1 rfl

/-- C3 counterexample: a recipients value of `" , "` passes validation (it is
a non-empty string) yet splits to the empty list, so resolution succeeds with
no recipients. -/
theorem C3_counterexample :
    Config.from_env srcNone envCommaRecipients srcNone =
      .ok { host := "h", port := 587, user := "u", password := "p", sender := "s@x",
            recipients := [], json_path := "allure-report/widgets/summary.json",
            report_url := "" } := rfl

/-- C3 (amended): when resolution succeeds, the merged recipients string was
present and non-empty (that is all the validation guarantees), and the
resulting recipients list is exactly that string split on commas, trimmed, and
with empty parts dropped — a list that can be empty. -/
theorem C3_recipients_validated_string (file env ov : Src) (cfg : Config)
    (h : Config.from_env file env ov = .ok cfg) :
    mergedMap file env ov Field.recipients ≠ none ∧
    mergedMap file env ov Field.recipients ≠ some "" ∧
    cfg.recipients = splitRecipients ((mergedMap file env ov Field.recipients).getD "") := by
  unfold Config.from_env resolveMerged at h
  by_cases hmiss : missingFields (mergedMap file env ov) = []
  · rw [if_pos hmiss] at h
    have hblank := requiredNotBlank _ Field.recipients hmiss (by decide)
    cases hrec : mergedMap file env ov Field.recipients with
    | none => rw [hrec] at hblank; simp [isBlank] at hblank
    | some rs =>
      rw [hrec] at hblank
      have hrs : rs ≠ "" := fun heq => by subst heq; simp [isBlank] at hblank
      obtain ⟨n, _, hfin⟩ := except_bind_ok h
      refine ⟨by simp [hrec], by simp [hrec, hrs], ?_⟩
      simpa using finishConfig_ok_recipients _ n cfg rs hrec hfin
  · rw [if_neg hmiss] at h
    exact absurd h (by simp)

/-- C3 witness: a fully populated environment resolves successfully, and the
amended claim's conclusions hold for it. -/
theorem C3_recipients_validated_string_witness :
    mergedMap srcNone envFull srcNone Field.recipients ≠ none ∧
    mergedMap srcNone envFull srcNone Field.recipients ≠ some "" ∧
    cfgFull.recipients =
      splitRecipients ((mergedMap srcNone envFull srcNone Field.recipients).getD "") :=
  C3_recipients_validated_string srcNone envFull srcNone cfgFull rfl

/-- C7: the recipients string `"a@x.com, b@y.com ,,c@z.com"` resolves to the
list `["a@x.com", "b@y.com", "c@z.com"]`: split on commas, each part trimmed,
empty parts dropped, order preserved. -/
theorem C7_recipients_splitting :
    Config.from_env srcNone envSplitExample srcNone =
      .ok { host := "smtp.example.com", port := 587, user := "u", password := "p",
            sender := "s@example.com",
            recipients := ["a@x.com", "b@y.com", "c@z.com"],
            json_path := "allure-report/widgets/summary.json", report_url := "" } := rfl

/-- C10: when the `send` command passes an integer port override `p` (the CLI
sends `str(p)` as the override string), a successful resolution yields exactly
`port = p`, whatever the file and environment say. -/
theorem C10_port_override_roundtrip (p : Int) (file env ov : Src) (cfg : Config)
    (hov : ov Field.port = some (intDec p))
    (h : Config.from_env file env ov = .ok cfg) : cfg.port = p := by
  have hm : mergedMap file env ov Field.port = some (intDec p) :=
    mergedMap_override file env ov Field.port _ hov
  unfold Config.from_env resolveMerged at h
  by_cases hmiss : missingFields (mergedMap file env ov) = []
  · rw [if_pos hmiss] at h
    obtain ⟨n, hn, hfin⟩ := except_bind_ok h
    rw [hm] at hn
    simp only [parsePortVal, pyInt_intDec] at hn
    injection hn with hn2
    rw [← hn2] at hfin
    exact finishConfig_ok_port _ p cfg hfin
  · rw [if_neg hmiss] at h
    exact absurd h (by simp)

/-- C10 witness: overriding the port with 2525 on top of an environment whose
`PORT` is 587 resolves to port 2525. -/
theorem C10_port_override_roundtrip_witness : cfgFull2525.port = 2525 :=
  C10_port_override_roundtrip 2525 srcNone envFull ovPort2525 cfgFull2525 rfl rfl

/-- C4 counterexample: a `statistic` value that is not coercible to an integer
(JSON `null`) makes `parse_summary` fail with a `TypeError` from `int(...)`;
it does not succeed with the counter defaulted to 0. -/
theorem C4_counterexample :
    parse_summary true (some (.obj [("statistic", .obj [("total", JsonVal.null)])])) =
      .error .typeError := rfl

/-- C4 (amended): for every statistic object and every one of the five counter
keys, a value that is not coercible to an integer makes `parse_summary` fail
rather than succeed with a 0 default; every such failure is the propagated
`int(...)` coercion error of one of the five keys; and on success a counter is
0 whenever its key is missing (the 0 default applies only to missing keys). -/
theorem C4_coercion_failure_raises (stat : List (String × JsonVal)) :
    (∀ key ∈ counterKeys, ∀ e, coerceInt ((stat.lookup key).getD (.num 0)) = .error e →
      ∀ r, parse_summary true (some (.obj [("statistic", .obj stat)])) ≠ .ok r) ∧
    (∀ e, parse_summary true (some (.obj [("statistic", .obj stat)])) = .error e →
      ∃ key ∈ counterKeys, coerceInt ((stat.lookup key).getD (.num 0)) = .error e) ∧
    (∀ r, parse_summary true (some (.obj [("statistic", .obj stat)])) = .ok r →
      (stat.lookup "total" = none → r.total = 0) ∧
      (stat.lookup "passed" = none → r.passed = 0) ∧
      (stat.lookup "failed" = none → r.failed = 0) ∧
      (stat.lookup "broken" = none → r.broken = 0) ∧
      (stat.lookup "skipped" = none → r.skipped = 0)) := by
  refine ⟨?_, fun e he => parse_stat_error_src stat e he, ?_⟩
  · intro key hkey e hfail r hok
    obtain ⟨ht, hp, hf, hb, hs⟩ := parse_stat_ok_fields stat r hok
    have hkey' : key = "total" ∨ key = "passed" ∨ key = "failed" ∨
        key = "broken" ∨ key = "skipped" := by simpa [counterKeys] using hkey
    rcases hkey' with h | h | h | h | h <;> subst h
    · rw [hfail] at ht; exact Except.noConfusion ht
    · rw [hfail] at hp; exact Except.noConfusion hp
    · rw [hfail] at hf; exact Except.noConfusion hf
    · rw [hfail] at hb; exact Except.noConfusion hb
    · rw [hfail] at hs; exact Except.noConfusion hs
  · intro r hok
    obtain ⟨ht, hp, hf, hb, hs⟩ := parse_stat_ok_fields stat r hok
    refine ⟨fun hn => ?_, fun hn => ?_, fun hn => ?_, fun hn => ?_, fun hn => ?_⟩
    · rw [hn] at ht
      simp only [Option.getD_none, coerceInt] at ht
      injection ht with h2
      exact h2.symm
    · rw [hn] at hp
      simp only [Option.getD_none, coerceInt] at hp
      injection hp with h2
      exact h2.symm
    · rw [hn] at hf
      simp only [Option.getD_none, coerceInt] at hf
      injection hf with h2
      exact h2.symm
    · rw [hn] at hb
      simp only [Option.getD_none, coerceInt] at hb
      injection hb with h2
      exact h2.symm
    · rw [hn] at hs
      simp only [Option.getD_none, coerceInt] at hs
      injection hs with h2
      exact h2.symm

/-- C4 witness: a non-numeric string at the `passed` key (with `total` absent)
makes the parse fail, not succeed with defaulted counters. -/
theorem C4_coercion_failure_raises_witness :
    parse_summary true (some (.obj [("statistic", .obj [("passed", JsonVal.str "abc")])])) ≠
      .ok ⟨0, 0, 0, 0, 0⟩ :=
  (C4_coercion_failure_raises [("passed", JsonVal.str "abc")]).1 "passed" (by decide)
    PyError.valueError rfl ⟨0, 0, 0, 0, 0⟩

/-- C5 counterexample: on a JSON array, `parse_summary` fails with an
`AttributeError` (from `.get` on a non-dict), while invalid JSON fails with a
`JSONDecodeError`; the two error kinds are different. -/
theorem C5_counterexample :
    parse_summary true (some (.arr [])) = .error .attributeError ∧
    parse_summary true none = .error .jsonDecodeError ∧
    PyError.attributeError ≠ PyError.jsonDecodeError :=
  ⟨rfl, rfl, by decide⟩

/-- C5 (amended): on every decoded document whose top-level value is not a
JSON object, `parse_summary` fails — but with an `AttributeError`, not with
the error kind raised for content that is not valid JSON. -/
theorem C5_non_object_attribute_error (v : JsonVal) (h : v.isObj = false) :
    parse_summary true (some v) = .error .attributeError := by
  cases v <;> first
    | rfl
    | simp [JsonVal.isObj] at h

/-- C5 witness: a bare number at the top level hits the `AttributeError`. -/
theorem C5_non_object_attribute_error_witness :
    parse_summary true (some (JsonVal.num 7)) = .error .attributeError :=
  C5_non_object_attribute_error (JsonVal.num 7) rfl

/-- C6 counterexample: `parse_summary` succeeds on a document whose total is
`-1`, producing a record with a negative field, so the produced counters are
not always non-negative. -/
theorem C6_counterexample :
    parse_summary true (some (.obj [("statistic", .obj [("total", JsonVal.num (-1))])])) =
      .ok ⟨-1, 0, 0, 0, 0⟩ ∧ (-1 : Int) < 0 :=
  ⟨rfl, by decide⟩

/-- C6 (amended): every record produced by a successful parse has its five
integer fields equal to the raw `int(...)` coercion of the corresponding
`statistic` entry, with 0 substituted only for missing keys; no sign
constraint is enforced. -/
theorem C6_fields_from_coercion (stat : List (String × JsonVal)) (r : Stats)
    (h : parse_summary true (some (.obj [("statistic", .obj stat)])) = .ok r) :
    coerceInt ((stat.lookup "total").getD (.num 0)) = .ok r.total ∧
    coerceInt ((stat.lookup "passed").getD (.num 0)) = .ok r.passed ∧
    coerceInt ((stat.lookup "failed").getD (.num 0)) = .ok r.failed ∧
    coerceInt ((stat.lookup "broken").getD (.num 0)) = .ok r.broken ∧
    coerceInt ((stat.lookup "skipped").getD (.num 0)) = .ok r.skipped := by
  have h' : (getCounter stat "total" >>= fun t =>
      getCounter stat "passed" >>= fun p =>
      getCounter stat "failed" >>= fun f =>
      getCounter stat "broken" >>= fun b =>
      getCounter stat "skipped" >>= fun s =>
      Except.ok ⟨t, p, f, b, s⟩) = .ok r := h
  obtain ⟨t, ht, h'⟩ := except_bind_ok h'
  obtain ⟨p, hp, h'⟩ := except_bind_ok h'
  obtain ⟨f, hf, h'⟩ := except_bind_ok h'
  obtain ⟨b, hb, h'⟩ := except_bind_ok h'
  obtain ⟨s, hs, h'⟩ := except_bind_ok h'
  injection h' with h2
  subst h2
  exact ⟨ht, hp, hf, hb, hs⟩

/-- C6 witness: the amended claim instantiated on a statistic carrying a
negative total. -/
theorem C6_fields_from_coercion_witness :
    coerceInt ((statNeg.lookup "total").getD (.num 0)) = .ok rNeg.total ∧
    coerceInt ((statNeg.lookup "passed").getD (.num 0)) = .ok rNeg.passed ∧
    coerceInt ((statNeg.lookup "failed").getD (.num 0)) = .ok rNeg.failed ∧
    coerceInt ((statNeg.lookup "broken").getD (.num 0)) = .ok rNeg.broken ∧
    coerceInt ((statNeg.lookup "skipped").getD (.num 0)) = .ok rNeg.skipped :=
  C6_fields_from_coercion statNeg rNeg rfl

/-- C8: missing counter keys default to 0: the document
`{"statistic": {"total": 10, "passed": 8, "failed": 2}}` parses to the
counters `{total: 10, passed: 8, failed: 2, broken: 0, skipped: 0}`. -/
theorem C8_missing_counters_default :
    parse_summary true (some (.obj [("statistic",
        .obj [("total", JsonVal.num 10), ("passed", JsonVal.num 8),
              ("failed", JsonVal.num 2)])])) =
      .ok ⟨10, 8, 2, 0, 0⟩ := rfl

set_option maxRecDepth 8192 in
/-- C9: for every counters record, the HTML rendered with an empty report URL
contains no anchor tag (no occurrence of `<a`), and the HTML rendered with
`reportUrl = "http://x/y"` contains `href='http://x/y'` with the URL inserted
verbatim. -/
theorem C9_report_link (stats : Stats) :
    containsSeg (build_html_email stats "").toList ['<', 'a'] = false ∧
    containsSeg (build_html_email stats "http://x/y").toList
      ("href='http://x/y'".toList) = true := by
  constructor
  · have h : noLtA (build_html_email stats "").toList = true := by
      simp only [build_html_email, reduceIte, string_toList_append, toList_empty,
        List.append_assoc, List.nil_append, List.append_nil]
      repeat
        first
        | exact noLtA_intDec _
        | exact intDec_head_ne _ _
        | exact head_append_ne _ _ _ rfl (by decide)
        | decide
        | apply noLtA_append
    rw [containsSeg_anchor_eq, h]
    rfl
  · simp only [build_html_email, reduceIte, string_toList_append,
      List.append_assoc]
    iterate 17 apply containsSeg_append_right
    decide

end AllureEmailer
